import Mathlib

/-!
# SignalForge — verification of the natural-language specification

Shallow embedding of the parts of the SignalForge repository that the
claims C1..C10 are about, together with theorems settling each claim.

Conventions used throughout:
* Python `float` arithmetic is embedded as exact rational arithmetic (`ℚ`);
  all the constants involved (0.6, 0.3, 0.1, thresholds, TTLs) are exactly
  representable, and no claim hinges on rounding of binary floats.
* Python `dict`s are embedded as association lists in insertion order.
* `time.time()` / `datetime.now()` are injected as explicit parameters.
* Functions from the Python standard library that the repository merely
  calls (difflib.SequenceMatcher, regex keyword extraction, strftime) are
  injected as function parameters where their output is passed through
  opaquely.
-/

set_option autoImplicit false
set_option maxHeartbeats 1000000

namespace SignalForge

/-! ## News weighting — src/mcp_server/tools/analytics.py, calculate_news_weight -/

/-- A news record as consumed by `calculate_news_weight`: a dict holding a
`ranks` list and an optional `count` field (`news_data.get("count", len(ranks))`). -/
structure NewsData where
  ranks : List ℤ
  count : Option ℤ

/-- Embedding of `calculate_news_weight(news_data, rank_threshold=5)` from
src/mcp_server/tools/analytics.py.  Mirrors the source line by line:
empty rank list returns 0.0; otherwise
`rank_weight = mean (11 - min(rank, 10))`, `frequency_weight = min(count,10)*10`,
hotness is `high_rank_count / len(ranks) * 100`, and the total blends the
three with the fixed 0.6 / 0.3 / 0.1 coefficients. -/
def calculate_news_weight (news_data : NewsData) (rank_threshold : ℤ := 5) : ℚ :=
  if news_data.ranks = [] then 0
  else
    let count : ℤ := news_data.count.getD news_data.ranks.length
    let rank_scores : List ℚ := news_data.ranks.map (fun r => (11 : ℚ) - (min r 10 : ℤ))
    let rank_weight : ℚ := rank_scores.sum / news_data.ranks.length
    let frequency_weight : ℚ := ((min count 10 : ℤ) : ℚ) * 10
    let high_rank_count : ℕ := (news_data.ranks.filter (fun r => r ≤ rank_threshold)).length
    let hotness_frac : ℚ := (high_rank_count : ℚ) / news_data.ranks.length
    let hotness_weight : ℚ := hotness_frac * 100
    rank_weight * (6/10) + frequency_weight * (3/10) + hotness_weight * (1/10)

/-- The weight formula exactly as the claim C1 words it: the hotness term
divides the number of high-rank occurrences by the record's **count** field
(not by the number of occurrences).  Stated for comparison with
`calculate_news_weight`. -/
def claimed_news_weight (news_data : NewsData) : ℚ :=
  let count : ℤ := news_data.count.getD news_data.ranks.length
  let rank_scores : List ℚ := news_data.ranks.map (fun r => (11 : ℚ) - (min r 10 : ℤ))
  let rank_mean : ℚ := rank_scores.sum / news_data.ranks.length
  let high_rank_count : ℕ := (news_data.ranks.filter (fun r => r ≤ 5)).length
  rank_mean * (6/10) + ((min count 10 : ℤ) : ℚ) * 10 * (3/10)
    + (high_rank_count : ℚ) / count * 100 * (1/10)

/-- The weight formula as amended: the hotness term divides the number of
high-rank occurrences by the **number of occurrences** (`len(ranks)`),
which is what the source divides by. -/
def amended_news_weight (news_data : NewsData) (rank_threshold : ℤ) : ℚ :=
  let count : ℤ := news_data.count.getD news_data.ranks.length
  let rank_scores : List ℚ := news_data.ranks.map (fun r => (11 : ℚ) - (min r 10 : ℤ))
  let rank_mean : ℚ := rank_scores.sum / news_data.ranks.length
  let high_rank_count : ℕ := (news_data.ranks.filter (fun r => r ≤ rank_threshold)).length
  rank_mean * (6/10) + ((min count 10 : ℤ) : ℚ) * 10 * (3/10)
    + (high_rank_count : ℚ) / news_data.ranks.length * 100 * (1/10)

/-! ## Cache service — src/mcp_server/services/cache_service.py

Python dicts are embedded as association lists in insertion order; the two
parallel dicts `_cache` and `_timestamps` become the two fields of
`CacheState`.  `time.time()` is injected as a `now : ℚ` parameter. -/

/-- `d[k]` lookup returning `none` when the key is absent. -/
def dictGet? {α : Type} (l : List (String × α)) (k : String) : Option α :=
  (l.find? (fun p => p.1 == k)).map Prod.snd

/-- `d[k] = v`: update in place when the key exists (Python dicts keep the
original insertion position), else append. -/
def dictSet {α : Type} (l : List (String × α)) (k : String) (v : α) : List (String × α) :=
  if (l.find? (fun p => p.1 == k)).isSome then
    l.map (fun p => if p.1 == k then (k, v) else p)
  else l ++ [(k, v)]

/-- `del d[k]`. -/
def dictDel {α : Type} (l : List (String × α)) (k : String) : List (String × α) :=
  l.filter (fun p => !(p.1 == k))

/-- The state of one `CacheService` instance: the `_cache` dict and the
`_timestamps` dict. -/
structure CacheState (α : Type) where
  cache : List (String × α)
  timestamps : List (String × ℚ)

/-- Reachable cache states: both dicts hold exactly the same keys (every
operation updates them in lockstep), without duplicates. -/
def CacheState.wellFormed {α : Type} (s : CacheState α) : Prop :=
  s.cache.map Prod.fst = s.timestamps.map Prod.fst ∧ (s.cache.map Prod.fst).Nodup

instance {α : Type} (s : CacheState α) : Decidable s.wellFormed := by
  unfold CacheState.wellFormed; infer_instance

/-- Embedding of `CacheService.get(key, ttl)`: return the stored value while
`time.time() - timestamp < ttl`, else delete the entry from both dicts and
report absence.  (The inner `none` timestamp case is unreachable for
well-formed states; in Python it would raise `KeyError`.) -/
def CacheService.get {α : Type} (s : CacheState α) (now : ℚ) (key : String) (ttl : ℚ) :
    Option α × CacheState α :=
  match dictGet? s.cache key with
  | some v =>
    match dictGet? s.timestamps key with
    | some t =>
        if now - t < ttl then (some v, s)
        else (none, ⟨dictDel s.cache key, dictDel s.timestamps key⟩)
    | none => (none, s)
  | none => (none, s)

/-- Embedding of `CacheService.set(key, value)`. -/
def CacheService.set {α : Type} (s : CacheState α) (now : ℚ) (key : String) (v : α) :
    CacheState α :=
  ⟨dictSet s.cache key v, dictSet s.timestamps key now⟩

/-- Embedding of `CacheService.delete(key)`. -/
def CacheService.delete {α : Type} (s : CacheState α) (key : String) : Bool × CacheState α :=
  if (dictGet? s.cache key).isSome then
    (true, ⟨dictDel s.cache key, dictDel s.timestamps key⟩)
  else (false, s)

/-- Embedding of `CacheService.cleanup_expired(ttl)`. -/
def CacheService.cleanup_expired {α : Type} (s : CacheState α) (now : ℚ) (ttl : ℚ) :
    ℕ × CacheState α :=
  let expired := (s.timestamps.filter (fun p => ttl ≤ now - p.2)).map Prod.fst
  (expired.length,
   ⟨s.cache.filter (fun p => !(expired.contains p.1)),
    s.timestamps.filter (fun p => !(expired.contains p.1))⟩)

/-- The dictionary returned by `CacheService.get_stats()`. -/
structure CacheStats where
  total_entries : ℕ
  oldest_entry_age : ℚ
  newest_entry_age : ℚ

/-- Embedding of `CacheService.get_stats()`. -/
def CacheService.get_stats {α : Type} (s : CacheState α) (now : ℚ) : CacheStats :=
  { total_entries := s.cache.length
    oldest_entry_age :=
      match s.timestamps.map Prod.snd with
      | [] => 0
      | t :: ts => now - ts.foldl min t
    newest_entry_age :=
      match s.timestamps.map Prod.snd with
      | [] => 0
      | t :: ts => now - ts.foldl max t }

/-! ## String helpers shared by several components -/

/-- Python `str.lower()` (character-wise lowering; the titles and queries
involved are ASCII, where `Char.toLower` agrees with Python). -/
def pyToLower (s : String) : String := ⟨s.data.map Char.toLower⟩

/-- Python substring containment `needle in haystack` on character lists. -/
def pyInChars (needle : List Char) : List Char → Bool
  | [] => needle.isEmpty
  | c :: t => needle.isPrefixOf (c :: t) || pyInChars needle t

/-- Python substring containment `needle in haystack` on strings. -/
def pyIn (needle haystack : String) : Bool := pyInChars needle.data haystack.data

/-- Python `round(x, 2)` (round half to even) on the exact rational value. -/
def pyRound2 (x : ℚ) : ℚ :=
  let f : ℤ := ⌊x * 100⌋
  let frac : ℚ := x * 100 - f
  ((if frac < 1/2 then f else if 1/2 < frac then f + 1
    else if Even f then f else f + 1 : ℤ) : ℚ) / 100

/-! ## Fuzzy matching — src/mcp_server/tools/search_tools.py, SearchTools._fuzzy_match

`difflib.SequenceMatcher(...).ratio()` (Python standard library, called via
`_calculate_similarity`) and the regex-based `_extract_keywords` are
injected as opaque functions: the claim C5 holds for every behaviour of
both. -/

/-- The two helpers `_fuzzy_match` calls out to. -/
structure FuzzyCtx where
  seqSim : String → String → ℚ
  extract : String → List String

/-- Embedding of `SearchTools._fuzzy_match(query, text, threshold)`:
(1) exact case-insensitive containment matches at 1.0; else (2) sequence
similarity ≥ threshold matches at that value; else (3) keyword overlap
≥ 0.5 matches at `max(seq, overlap)`; else (4) positive overlap blends
`0.4*seq + 0.6*overlap` and matches only if it clears the threshold;
otherwise no match, reporting the raw sequence similarity. -/
def fuzzy_match (ctx : FuzzyCtx) (query text : String) (threshold : ℚ) : Bool × ℚ :=
  let query_lower := pyToLower query
  let text_lower := pyToLower text
  if pyIn query_lower text_lower then (true, 1)
  else
    let seq_similarity := ctx.seqSim query_lower text_lower
    if threshold ≤ seq_similarity then (true, seq_similarity)
    else
      let query_keywords := (ctx.extract query_lower).dedup
      let text_keywords := (ctx.extract text_lower).dedup
      if query_keywords = [] ∨ text_keywords = [] then (false, 0)
      else
        let common_words := query_keywords.filter (fun w => text_keywords.contains w)
        let keyword_overlap : ℚ := (common_words.length : ℚ) / query_keywords.length
        if 1/2 ≤ keyword_overlap then (true, max seq_similarity keyword_overlap)
        else if 0 < keyword_overlap then
          let hybrid_score := seq_similarity * (4/10) + keyword_overlap * (6/10)
          if threshold ≤ hybrid_score then (true, hybrid_score)
          else (false, seq_similarity)
        else (false, seq_similarity)

/-! ## Viral topic detection — src/mcp_server/tools/analytics.py,
AnalyticsTools.detect_viral_topics

The per-keyword decision made inside the `for keyword, current_count in
current_keywords.items()` loop.  The keyword tables themselves come from
`_extract_keywords` over the two days of titles and are inputs here. -/

/-- The `growth_rate` field as reported: Python stores `float("inf")` for a
new topic and renders it as the string `"New Topic"` in the output dict. -/
inductive GrowthRepr where
  | newTopic : GrowthRepr
  | rate (r : ℚ) : GrowthRepr
deriving DecidableEq

/-- One entry of the `viral_topics` output list. -/
structure ViralTopic where
  keyword : String
  current_count : ℕ
  previous_count : ℕ
  growth_rate : GrowthRepr
  sample_titles : List String
  alert_level : String
deriving DecidableEq

/-- Embedding of the loop body of `detect_viral_topics` for one keyword:
with `previous_count = 0` the keyword is viral only when
`current_count >= 5` (growth `float("inf")`, reported `"New Topic"`, and
`inf > threshold * 2` makes the alert level `"High"`); otherwise the growth
ratio `current/previous` is viral when it reaches the threshold. -/
def viralEntry (threshold : ℚ) (kw : String) (current_count previous_count : ℕ)
    (samples : List String) : Option ViralTopic :=
  if previous_count = 0 then
    if 5 ≤ current_count then
      some { keyword := kw, current_count := current_count,
             previous_count := previous_count, growth_rate := .newTopic,
             sample_titles := samples.take 3, alert_level := "High" }
    else none
  else
    let growth : ℚ := (current_count : ℚ) / (previous_count : ℚ)
    if threshold ≤ growth then
      some { keyword := kw, current_count := current_count,
             previous_count := previous_count, growth_rate := .rate (pyRound2 growth),
             sample_titles := samples.take 3,
             alert_level := if threshold * 2 < growth then "High" else "Medium" }
    else none

/-- The sort key used on `viral_topics` (new topics sort by raw count,
others by growth ratio), descending. -/
def viralSortKey (v : ViralTopic) : ℚ :=
  match v.growth_rate with
  | .newTopic => v.current_count
  | .rate r => r

/-- Embedding of the detection loop over the current-day keyword table,
with the previous-day table and the sample-title table as lookups. -/
def detect_viral_core (threshold : ℚ) (current_keywords : List (String × ℕ))
    (previousCount : String → ℕ) (titlesFor : String → List String) : List ViralTopic :=
  (current_keywords.filterMap
    (fun p => viralEntry threshold p.1 p.2 (previousCount p.1) (titlesFor p.1))).mergeSort
    (fun a b => viralSortKey b ≤ viralSortKey a)

/-! ## English news categorization — src/fetch_english_news.py -/

/-- The `TECH_KEYWORDS` table, transcribed verbatim (a Python dict preserves
this insertion order, which is the match order of `categorize_news`). -/
def TECH_KEYWORDS : List (String × List String) :=
  [("AI & Machine Learning",
    ["AI", "Artificial Intelligence", "Machine Learning", "ChatGPT", "GPT-4",
     "Claude", "Anthropic", "Gemini", "DeepMind", "Sora", "Neural Network",
     "LLM", "OpenAI", "Deep Learning", "GenAI", "Generative AI"]),
   ("Semiconductors & Hardware",
    ["Chip", "Semiconductor", "Lithography", "GPU", "CPU", "NVIDIA",
     "AMD", "Intel", "TSMC", "Processor", "Silicon"]),
   ("Cloud & Enterprise",
    ["Cloud", "AWS", "Azure", "Google Cloud", "SaaS", "Enterprise",
     "Data Center", "Serverless", "Kubernetes"]),
   ("Cybersecurity",
    ["Security", "Cyber", "Breach", "Hack", "Vulnerability", "Encryption",
     "Privacy", "Ransomware", "Zero-day"]),
   ("Software Development",
    ["Programming", "Developer", "GitHub", "Open Source", "API",
     "Framework", "Python", "JavaScript", "Rust"]),
   ("Mobile & Devices",
    ["iPhone", "Android", "Smartphone", "Mobile", "Tablet", "Apple",
     "Samsung", "Google Pixel"]),
   ("Startups & Funding",
    ["Startup", "Funding", "VC", "Venture Capital", "IPO", "Acquisition",
     "Series A", "Series B", "Investment"])]

/-- The inner loop of `categorize_news`: scan the categories in order and
return the first whose keyword list contains a case-insensitive substring
of the (already lowered) title. -/
def categorize_first : List (String × List String) → String → Option String
  | [], _ => none
  | (category, keywords) :: rest, title_lower =>
      if keywords.any (fun k => pyIn (pyToLower k) title_lower) then some category
      else categorize_first rest title_lower

/-- The topic bucket `categorize_news` places one item into: the first
matching category of `TECH_KEYWORDS`, else the catch-all
`"General Tech News"`. -/
def categorize_bucket (title : String) : String :=
  (categorize_first TECH_KEYWORDS (pyToLower title)).getD "General Tech News"

/-! ## RSS health checker (second variant) — src/check_sources_health.py

The network fetch itself is a boundary system; its observable outcome for
one source (timeout / connection error / other exception / an HTTP response
with a status code, XML parse result, item count and optional first-item
date) is the `FetchOutcome` input of `check_rss_source`. -/

/-- The `status` field of a probe result. -/
inductive SourceStatus where
  | healthy : SourceStatus
  | warning : SourceStatus
  | error : SourceStatus
  | unknown : SourceStatus
deriving DecidableEq

/-- The details dict built by `check_rss_source`. -/
structure ProbeDetails where
  source : String
  url : String
  status : SourceStatus
  items_found : ℕ
  errorMsg : Option String
  response_time : Option ℚ
  last_item_date : Option String
deriving DecidableEq

/-- What one feed fetch observably did. -/
inductive FetchOutcome where
  | timeout : FetchOutcome
  | connectionError : FetchOutcome
  | otherExc (msg : String) : FetchOutcome
  | response (status_code : ℕ) (xmlError : Option String) (items_found : ℕ)
      (lastItemDate : Option String) : FetchOutcome

/-- Embedding of `check_rss_source(source_name, feed_url)`: classify the
fetch outcome into healthy / warning / error with the diagnostic strings of
the source, returning the `(is_healthy, details)` pair. -/
def check_rss_source (source_name feed_url : String) (outcome : FetchOutcome)
    (response_time : ℚ) : Bool × ProbeDetails :=
  let base : ProbeDetails :=
    { source := source_name, url := feed_url, status := .unknown, items_found := 0,
      errorMsg := none, response_time := none, last_item_date := none }
  match outcome with
  | .timeout => (false, { base with status := .error, errorMsg := some "Request timeout" })
  | .connectionError =>
      (false, { base with status := .error, errorMsg := some "Connection error" })
  | .otherExc msg =>
      (false, { base with status := .error, errorMsg := some (msg.take 100) })
  | .response status_code xmlError items_found lastItemDate =>
    let d := { base with response_time := some (pyRound2 response_time) }
    if status_code ≠ 200 then
      (false, { d with status := .error, errorMsg := some ("HTTP " ++ toString status_code) })
    else
      match xmlError with
      | some e =>
          (false, { d with status := .error, errorMsg := some ("Invalid XML: " ++ e.take 50) })
      | none =>
        let d := { d with items_found := items_found }
        if items_found = 0 then
          (false, { d with status := .warning, errorMsg := some "No items found in feed" })
        else
          (true, { d with status := .healthy, last_item_date := lastItemDate })

/-- The report written by `save_health_report` (the `checked_at` wall-clock
stamp is omitted). -/
structure HealthReport where
  total_sources : ℕ
  healthy_sources : ℕ
  failed_sources : ℕ
  sources : List ProbeDetails

/-- Embedding of `save_health_report(results)`: `healthy_sources` counts
status `"healthy"`, `failed_sources` counts status `"error"` only. -/
def save_health_report (results : List ProbeDetails) : HealthReport :=
  { total_sources := results.length
    healthy_sources := (results.filter (fun r => r.status = .healthy)).length
    failed_sources := (results.filter (fun r => r.status = .error)).length
    sources := results }

/-- The per-source checks accumulated by `main()`. -/
def probeChecks (probes : List (String × String × FetchOutcome × ℚ)) :
    List (Bool × ProbeDetails) :=
  probes.map (fun p => check_rss_source p.1 p.2.1 p.2.2.1 p.2.2.2)

/-- The `results` list `main()` passes to `save_health_report`. -/
def probeResults (probes : List (String × String × FetchOutcome × ℚ)) : List ProbeDetails :=
  (probeChecks probes).map Prod.snd

/-- Embedding of `main()`'s exit: `sys.exit(0 if failed_count == 0 else 1)`,
where `failed_count` counts probes whose `is_healthy` flag is false. -/
def main_exit_code (checks : List (Bool × ProbeDetails)) : ℕ :=
  if (checks.filter (fun c => !c.1)).length = 0 then 0 else 1

/-! ## Decimal rendering of integers (Python `str`, f-strings) -/

/-- Little-endian decimal digits of a natural number. -/
def natDigits (n : ℕ) : List ℕ :=
  if h : n < 10 then [n]
  else n % 10 :: natDigits (n / 10)
decreasing_by exact Nat.div_lt_self (by omega) (by omega)

/-- The character for one decimal digit. -/
def digitChar (d : ℕ) : Char := Char.ofNat (48 + d)

/-- Python `str(n)` for a natural number. -/
def pyNatRepr (n : ℕ) : String := ⟨((natDigits n).map digitChar).reverse⟩

/-- Python `str(i)` for an integer. -/
def pyIntRepr (i : ℤ) : String :=
  if i < 0 then "-" ++ pyNatRepr (-i).toNat else pyNatRepr i.toNat

/-- Python `str(b)` for a boolean (used by the f-string cache keys). -/
def pyBoolRepr (b : Bool) : String := if b then "True" else "False"

/-! ## Error taxonomy and validators — src/mcp_server/utils/validators.py

`errors.py` itself is not among the provided sources (only its callers
are).  `PyErr` is modelled from the spec, §4.1/§7: each taxonomy kind
carries a message and optional suggestion and serializes to a
`{code, message, suggestion}` dict via `to_dict`; `ValueError` is the
Python built-in, which no facade treats as a taxonomy error.  The exact
code strings of the taxonomy kinds are not observable by any claim — every
claim below only distinguishes taxonomy errors from the catch-all
`INTERNAL_ERROR` path. -/

/-- The errors a tool-facade call can propagate. -/
inductive PyErr where
  | invalidParameter (message : String) (suggestion : Option String) : PyErr
  | dataNotFound (message : String) (suggestion : Option String) : PyErr
  | valueError (message : String) : PyErr
deriving DecidableEq

/-- Whether the exception is an `MCPError` (taxonomy) instance; `ValueError`
is a Python built-in and is not. -/
def PyErr.isMCPError : PyErr → Bool
  | .valueError _ => false
  | _ => true

/-- The raw exception text (`str(e)`). -/
def PyErr.message : PyErr → String
  | .invalidParameter m _ => m
  | .dataNotFound m _ => m
  | .valueError m => m

/-- The serialized error structure placed in a failure envelope. -/
structure ErrorDict where
  code : String
  message : String
  suggestion : Option String
deriving DecidableEq

/-- `e.to_dict()` for taxonomy errors (codes modelled from the spec). -/
def PyErr.to_dict : PyErr → ErrorDict
  | .invalidParameter m s => ⟨"INVALID_PARAMETER", m, s⟩
  | .dataNotFound m s => ⟨"DATA_NOT_FOUND", m, s⟩
  | .valueError m => ⟨"VALUE_ERROR", m, none⟩

/-- The error structure a facade emits: `e.to_dict()` for an `MCPError`,
else the `INTERNAL_ERROR` catch-all with `str(e)`. -/
def facadeError (e : PyErr) : ErrorDict :=
  if e.isMCPError then e.to_dict else ⟨"INTERNAL_ERROR", e.message, none⟩

/-- Embedding of `validate_limit(limit, default, max_limit)`. -/
def validate_limit (limit : Option ℤ) (dflt : ℤ) (max_limit : ℤ) : Except PyErr ℤ :=
  match limit with
  | none => .ok dflt
  | some l =>
    if l ≤ 0 then .error (.invalidParameter "Limit must be greater than 0." none)
    else if l > max_limit then
      .error (.invalidParameter ("Limit cannot exceed " ++ pyIntRepr max_limit)
        (some "Please use pagination or reduce the limit value."))
    else .ok l

/-- Embedding of `validate_top_n(top_n, default)`: limit validation with
ceiling 100. -/
def validate_top_n (top_n : Option ℤ) (dflt : ℤ) : Except PyErr ℤ :=
  validate_limit top_n dflt 100

/-- Embedding of `validate_mode(mode, valid_modes, default)`. -/
def validate_mode (mode : Option String) (valid_modes : List String) (dflt : String) :
    Except PyErr String :=
  match mode with
  | none => .ok dflt
  | some m =>
    if m ∈ valid_modes then .ok m
    else .error (.invalidParameter ("Invalid mode: " ++ m)
      (some ("Supported modes: " ++ String.intercalate ", " valid_modes)))

/-! ## Parsed crawler output — the shape returned by
ParserService.read_all_titles_for_date (parser_service.py is not among the
provided sources; its result is injected as data of this shape, per the
call sites in data_service.py and the spec, §4.7). -/

/-- The per-title record `{ranks, url, mobileUrl}`. -/
structure TitleInfo where
  ranks : List ℤ
  url : String
  mobileUrl : String
deriving DecidableEq

/-- The triple returned by `read_all_titles_for_date`: platform →
title → info, platform → display name, snapshot filename → capture time. -/
structure ParsedDay where
  all_titles : List (String × List (String × TitleInfo))
  id_to_name : List (String × String)
  timestamps : List (String × ℚ)

/-- One named group of the frequency watchlist. -/
structure WordGroup where
  required : List String
  normal : List String

/-! ## Trending topics — src/mcp_server/services/data_service.py,
DataService.get_trending_topics, and src/mcp_server/tools/data_query.py,
DataQueryTools.get_trending_topics -/

/-- One entry of the `topics` list. -/
structure TrendingTopic where
  keyword : String
  frequency : ℕ
  matched_news : ℕ
  trend : String
  weight_score : ℚ
deriving DecidableEq

/-- The dict returned by `DataService.get_trending_topics` (`generated_at`
holds the wall-clock instant that the source formats with strftime). -/
structure TrendingResult where
  topics : List TrendingTopic
  generated_at : ℚ
  mode : String
  total_keywords : ℕ
  description : String
deriving DecidableEq

/-- The f-string cache key `trending_topics:{top_n}:{mode}`. -/
def trending_topics_cache_key (top_n : ℤ) (mode : String) : String :=
  "trending_topics:" ++ pyIntRepr top_n ++ ":" ++ mode

/-- `Counter` increment (Python dicts keep first-insertion order). -/
def counterInc (l : List (String × ℕ)) (w : String) : List (String × ℕ) :=
  if (l.find? (fun p => p.1 == w)).isSome then
    l.map (fun p => if p.1 == w then (p.1, p.2 + 1) else p)
  else l ++ [(w, 1)]

/-- The `keyword_to_news[word].append(title)` step (creating the list on
first use). -/
def keywordNewsAdd (l : List (String × List String)) (w title : String) :
    List (String × List String) :=
  match dictGet? l w with
  | some ts => dictSet l w (ts ++ [title])
  | none => l ++ [(w, [title])]

/-- The word-frequency counting loop of `get_trending_topics`: for every
platform, every title, every group and every word of
`required + normal`, a nonempty word occurring in the title (case-sensitive
substring, Python `word in title`) increments its counter and records the
title. -/
def trendingCounts (titles_to_process : List (String × List (String × TitleInfo)))
    (word_groups : List WordGroup) :
    List (String × ℕ) × List (String × List String) :=
  titles_to_process.foldl (fun acc p =>
    p.2.foldl (fun acc t =>
      word_groups.foldl (fun acc g =>
        (g.required ++ g.normal).foldl (fun acc w =>
          if w ≠ "" ∧ pyIn w t.1 then (counterInc acc.1 w, keywordNewsAdd acc.2 w t.1)
          else acc)
          acc)
        acc)
      acc)
    ([], [])

/-- `Counter.most_common(n)`: sort by count descending (stable, so ties keep
insertion order) and take the first `n`. -/
def mostCommon (l : List (String × ℕ)) (n : ℕ) : List (String × ℕ) :=
  (l.mergeSort (fun a b => b.2 ≤ a.2)).take n

/-- Embedding of `DataService._get_mode_description`. -/
def get_mode_description (mode : String) : String :=
  if mode = "daily" then "Daily Cumulative Stats"
  else if mode = "current" then "Latest Batch Stats"
  else "Unknown Mode"

/-- The environment a `get_trending_topics` call runs in: the shared cache,
the clock, the outcome of `parser.read_all_titles_for_date()` and the
watchlist from `parser.parse_frequency_words()`. -/
structure TrendingEnv where
  cache : CacheState TrendingResult
  now : ℚ
  readAllTitles : Except PyErr ParsedDay
  word_groups : List WordGroup

/-- Embedding of `DataService.get_trending_topics(top_n, mode)`:
serve from cache (ttl 1800) when present; read today's titles; raise
`DataNotFoundError` on empty data; `daily` processes the full merge and
`current` re-reads and uses the same merged data (the simplification kept
by the source); any other mode raises `ValueError`.  The second component
is the cache state after the call. -/
def DataService.get_trending_topics (env : TrendingEnv) (top_n : ℤ) (mode : String) :
    Except PyErr TrendingResult × CacheState TrendingResult :=
  let cache_key := trending_topics_cache_key top_n mode
  let got := CacheService.get env.cache env.now cache_key 1800
  match got.1 with
  | some v => (.ok v, got.2)
  | none =>
    match env.readAllTitles with
    | .error e => (.error e, got.2)
    | .ok day =>
      if day.all_titles = [] then
        (.error (.dataNotFound "No news data found for today"
          (some "Please ensure the crawler has run and generated data.")), got.2)
      else
        let compute := fun (titles_to_process : List (String × List (String × TitleInfo))) =>
          let counted := trendingCounts titles_to_process env.word_groups
          let top_keywords := mostCommon counted.1 top_n.toNat
          let topics := top_keywords.map (fun kf =>
            { keyword := kf.1, frequency := kf.2,
              matched_news := ((dictGet? counted.2 kf.1).getD []).dedup.length,
              trend := "stable", weight_score := 0 : TrendingTopic })
          let result : TrendingResult :=
            { topics := topics, generated_at := env.now, mode := mode,
              total_keywords := counted.1.length,
              description := get_mode_description mode }
          ((.ok result : Except PyErr TrendingResult),
            CacheService.set got.2 env.now cache_key result)
        if mode = "daily" then compute day.all_titles
        else if mode = "current" then compute day.all_titles
        else
          (.error (.valueError
            ("Unsupported mode: " ++ mode ++ ". Supported modes: daily, current")), got.2)

/-- The envelope a data-query facade operation returns. -/
inductive TrendingResponse where
  | success (r : TrendingResult) : TrendingResponse
  | failure (e : ErrorDict) : TrendingResponse

/-- The `success` field of the envelope. -/
def TrendingResponse.isSuccess : TrendingResponse → Bool
  | .success _ => true
  | .failure _ => false

/-- Embedding of `DataQueryTools.get_trending_topics(top_n, mode)`:
validate `top_n` (ceiling 100, default 10) and `mode` against
`["daily", "current", "incremental"]` (default `"current"`), call the
service, and wrap the outcome in the success/error envelope (taxonomy
errors via `to_dict`, anything else as `INTERNAL_ERROR`). -/
def DataQueryTools.get_trending_topics (env : TrendingEnv) (top_n : Option ℤ)
    (mode : Option String) : TrendingResponse × CacheState TrendingResult :=
  match validate_top_n top_n 10 with
  | .error e => (.failure (facadeError e), env.cache)
  | .ok tn =>
    match validate_mode mode ["daily", "current", "incremental"] "current" with
    | .error e => (.failure (facadeError e), env.cache)
    | .ok m =>
      match DataService.get_trending_topics env tn m with
      | (.ok r, s) => (.success r, s)
      | (.error e, s) => (.failure (facadeError e), s)

/-! ## Cache keys of the cached query operations —
src/mcp_server/services/data_service.py -/

/-- Python `sep.join(xs)`. -/
def pyJoin (sep : String) : List String → String
  | [] => ""
  | [x] => x
  | x :: y :: xs => x ++ sep ++ pyJoin sep (y :: xs)

/-- The f-string cache key
`latest_news:{",".join(platforms or [])}:{limit}:{include_url}`. -/
def latest_news_cache_key (platforms : Option (List String)) (limit : ℤ)
    (include_url : Bool) : String :=
  "latest_news:" ++ pyJoin "," (platforms.getD []) ++ ":" ++ pyIntRepr limit ++ ":" ++
    pyBoolRepr include_url

/-- A calendar date as held by a `datetime` (only the date part feeds the
by-date cache key through `strftime("%Y-%m-%d")`). -/
structure PyDate where
  year : ℕ
  month : ℕ
  day : ℕ
deriving DecidableEq

/-- Zero-padding to `k` characters, as `%0kd` does. -/
def zeroPad (k : ℕ) (s : String) : String :=
  ⟨List.replicate (k - s.length) '0' ++ s.data⟩

/-- `date.strftime("%Y-%m-%d")`. -/
def strftime_ymd (d : PyDate) : String :=
  zeroPad 4 (pyNatRepr d.year) ++ "-" ++ zeroPad 2 (pyNatRepr d.month) ++ "-" ++
    zeroPad 2 (pyNatRepr d.day)

/-- The f-string cache key
`news_by_date:{date_str}:{",".join(platforms or [])}:{limit}:{include_url}`. -/
def news_by_date_cache_key (date : PyDate) (platforms : Option (List String)) (limit : ℤ)
    (include_url : Bool) : String :=
  "news_by_date:" ++ strftime_ymd date ++ ":" ++ pyJoin "," (platforms.getD []) ++ ":" ++
    pyIntRepr limit ++ ":" ++ pyBoolRepr include_url

/-! ## Latest-news and by-date accessors —
src/mcp_server/services/data_service.py, DataService.get_latest_news and
DataService.get_news_by_date

The parser outcome for the requested day is injected (`parser_service.py`
is not among the provided sources); `datetime.fromtimestamp`/`strftime`
formatting of the fetch time is kept as the raw instant. -/

/-- One item of the list built by `get_latest_news`. -/
structure NewsItem where
  title : String
  platform : String
  platform_name : String
  rank : ℤ
  timestamp : ℚ
  url : Option String
  mobileUrl : Option String
deriving DecidableEq

/-- The body of `get_latest_news` after the cache gate: latest snapshot
instant (or now) as the shared timestamp, first recorded rank as display
rank, sort ascending by rank (Python sort is stable), truncate to
`limit`. -/
def newsListFromParsed (day : ParsedDay) (now : ℚ) (limit : ℕ) (include_url : Bool) :
    List NewsItem :=
  let fetch_time : ℚ :=
    match day.timestamps.map Prod.snd with
    | [] => now
    | t :: ts => ts.foldl max t
  let news_list := day.all_titles.flatMap (fun p =>
    p.2.map (fun ti =>
      { title := ti.1, platform := p.1,
        platform_name := (dictGet? day.id_to_name p.1).getD p.1,
        rank := ti.2.ranks.headD 0,
        timestamp := fetch_time,
        url := if include_url then some ti.2.url else none,
        mobileUrl := if include_url then some ti.2.mobileUrl else none : NewsItem }))
  (news_list.mergeSort (fun a b => a.rank ≤ b.rank)).take limit

/-- Embedding of `DataService.get_latest_news(platforms, limit, include_url)`.
The cache gate is Python `if cached:` — a cached value is served only when
it is truthy, so a cached empty list falls through to a fresh read. -/
def DataService.get_latest_news (cache : CacheState (List NewsItem)) (now : ℚ)
    (readToday : Except PyErr ParsedDay) (platforms : Option (List String)) (limit : ℤ)
    (include_url : Bool) : Except PyErr (List NewsItem) × CacheState (List NewsItem) :=
  let cache_key := latest_news_cache_key platforms limit include_url
  let got := CacheService.get cache now cache_key 900
  let proceed := fun (s : CacheState (List NewsItem)) =>
    match readToday with
    | .error e => ((.error e : Except PyErr (List NewsItem)), s)
    | .ok day =>
      let result := newsListFromParsed day now limit.toNat include_url
      (.ok result, CacheService.set s now cache_key result)
  match got.1 with
  | some cached => if cached ≠ [] then (.ok cached, got.2) else proceed got.2
  | none => proceed got.2

/-- One item of the list built by `get_news_by_date` (adds mean rank,
observation count and the date string). -/
structure DatedNewsItem where
  title : String
  platform : String
  platform_name : String
  rank : ℤ
  avg_rank : ℚ
  count : ℕ
  date : String
  url : Option String
  mobileUrl : Option String
deriving DecidableEq

/-- The body of `get_news_by_date` after the cache gate. -/
def newsListByDate (day : ParsedDay) (date_str : String) (limit : ℕ) (include_url : Bool) :
    List DatedNewsItem :=
  let news_list := day.all_titles.flatMap (fun p =>
    p.2.map (fun ti =>
      let avg : ℚ := if ti.2.ranks = [] then 0 else (ti.2.ranks.sum : ℚ) / ti.2.ranks.length
      { title := ti.1, platform := p.1,
        platform_name := (dictGet? day.id_to_name p.1).getD p.1,
        rank := ti.2.ranks.headD 0,
        avg_rank := pyRound2 avg,
        count := ti.2.ranks.length,
        date := date_str,
        url := if include_url then some ti.2.url else none,
        mobileUrl := if include_url then some ti.2.mobileUrl else none : DatedNewsItem }))
  (news_list.mergeSort (fun a b => a.rank ≤ b.rank)).take limit

/-- Embedding of
`DataService.get_news_by_date(target_date, platforms, limit, include_url)`,
with the same `if cached:` truthiness gate and a 1800-second ttl. -/
def DataService.get_news_by_date (cache : CacheState (List DatedNewsItem)) (now : ℚ)
    (readForDate : Except PyErr ParsedDay) (target_date : PyDate)
    (platforms : Option (List String)) (limit : ℤ) (include_url : Bool) :
    Except PyErr (List DatedNewsItem) × CacheState (List DatedNewsItem) :=
  let date_str := strftime_ymd target_date
  let cache_key := news_by_date_cache_key target_date platforms limit include_url
  let got := CacheService.get cache now cache_key 1800
  let proceed := fun (s : CacheState (List DatedNewsItem)) =>
    match readForDate with
    | .error e => ((.error e : Except PyErr (List DatedNewsItem)), s)
    | .ok day =>
      let result := newsListByDate day date_str limit.toNat include_url
      (.ok result, CacheService.set s now cache_key result)
  match got.1 with
  | some cached => if cached ≠ [] then (.ok cached, got.2) else proceed got.2
  | none => proceed got.2

/-! ## Decimal representation facts (towards the cache-key injectivity of C4) -/

/-- Value of a little-endian digit list. -/
def valLE : List ℕ → ℕ
  | [] => 0
  | d :: ds => d + 10 * valLE ds

/-- Numeric value of a big-endian character list of decimal digits. -/
def digitVal (c : Char) : ℕ := c.toNat - 48

/-- Value of a big-endian digit string. -/
def decValue (l : List Char) : ℕ := l.foldl (fun acc c => acc * 10 + digitVal c) 0

/-- A platform ID that keeps the comma/colon-delimited key format
unambiguous: nonempty, no comma, no colon.  (Real platform IDs come from
the YAML configuration and are of this shape.) -/
def goodPlatformId (s : String) : Prop := s ≠ "" ∧ ',' ∉ s.data ∧ ':' ∉ s.data

instance (s : String) : Decidable (goodPlatformId s) := by
  unfold goodPlatformId; infer_instance

/-! ## Date parser — src/mcp_server/utils/date_parser.py

A `datetime` value is embedded as a day number (days since 1970-01-01,
proleptic Gregorian) plus a time-of-day in seconds; `datetime.now()` is the
injected `now`.  `datetime(y, m, d)` constructs midnight of the civil date
(via the standard days-from-civil conversion) and raises `ValueError` on an
invalid date.  The regex layer of `parse_date_query` recognizes five
families of expressions; `DateQuery` is the result of that lexing (the
claim is about the returned values, which depend only on the recognized
family and its numeric captures). -/

/-- A `datetime`: day number since 1970-01-01 plus seconds since midnight. -/
structure PyDateTime where
  day : ℤ
  tod : ℕ
deriving DecidableEq

/-- `datetime.weekday()`: Monday = 0 … Sunday = 6 (1970-01-01 was a
Thursday). -/
def pyWeekday (day : ℤ) : ℤ := (day + 3) % 7

/-- Days since 1970-01-01 of a civil date (Howard Hinnant's algorithm, the
arithmetic behind `datetime(y, m, d)`). -/
def daysFromCivil (y m d : ℤ) : ℤ :=
  let y2 := if m ≤ 2 then y - 1 else y
  let era := (if 0 ≤ y2 then y2 else y2 - 399) / 400
  let yoe := y2 - era * 400
  let mp := (m + 9) % 12
  let doy := (153 * mp + 2) / 5 + d - 1
  let doe := yoe * 365 + yoe / 4 - yoe / 100 + doy
  era * 146097 + doe - 719468

/-- Civil date (year, month, day) of a day number (inverse of
`daysFromCivil`), used for `datetime.now().year` / `.month`. -/
def civilFromDays (z0 : ℤ) : ℤ × ℤ × ℤ :=
  let z := z0 + 719468
  let era := (if 0 ≤ z then z else z - 146096) / 146097
  let doe := z - era * 146097
  let yoe := (doe - doe / 1460 + doe / 36524 - doe / 146096) / 365
  let y := yoe + era * 400
  let doy := doe - (365 * yoe + yoe / 4 - yoe / 100)
  let mp := (5 * doy + 2) / 153
  let d := doy - (153 * mp + 2) / 5 + 1
  let m := if mp < 10 then mp + 3 else mp - 9
  (if m ≤ 2 then y + 1 else y, m, d)

/-- Gregorian leap-year test. -/
def isLeapYear (y : ℤ) : Bool :=
  (decide (y % 4 = 0) && !(decide (y % 100 = 0))) || decide (y % 400 = 0)

/-- Days in a month. -/
def daysInMonth (y m : ℤ) : ℤ :=
  if m = 2 then (if isLeapYear y then 29 else 28)
  else if m = 4 ∨ m = 6 ∨ m = 9 ∨ m = 11 then 30 else 31

/-- Whether `datetime(y, m, d)` succeeds (Python datetime accepts years
1..9999). -/
def validYMD (y m d : ℤ) : Bool :=
  decide (1 ≤ y) && decide (y ≤ 9999) && decide (1 ≤ m) && decide (m ≤ 12) &&
    decide (1 ≤ d) && decide (d ≤ daysInMonth y m)

/-- The five expression families `parse_date_query` recognizes, with their
numeric captures: the exact relative vocabulary (`today` 0, `yesterday` 1,
`ereyesterday` / `day before yesterday` 2), `N day(s) ago`,
`(last|this) <weekday>` (Monday = 0), ISO `YYYY-M-D`, and slash
`[YYYY/]M/D`. -/
inductive DateQuery where
  | relative (days_ago : ℕ) : DateQuery
  | nDaysAgo (n : ℕ) : DateQuery
  | weekday (isLast : Bool) (target : ℕ) : DateQuery
  | isoDate (y m d : ℕ) : DateQuery
  | slashDate (y : Option ℕ) (m d : ℕ) : DateQuery

/-- Embedding of `DateParser._get_date_by_weekday(target_weekday,
is_last_week)`: offset arithmetic from `today = datetime.now()`, keeping
now's time-of-day (`today - timedelta(days=days_diff)`). -/
def get_date_by_weekday (now : PyDateTime) (target_weekday : ℤ) (is_last_week : Bool) :
    PyDateTime :=
  let current_weekday := pyWeekday now.day
  let days_diff :=
    if is_last_week then current_weekday - target_weekday + 7
    else
      let dd := current_weekday - target_weekday
      if dd < 0 then dd + 7 else dd
  ⟨now.day - days_diff, now.tod⟩

/-- The year the slash-date branch resolves when the year is missing: the
current year, rolled back by one when the queried month is later than the
current month. -/
def slashYear (nowDay : ℤ) (oy : Option ℕ) (m : ℕ) : ℤ :=
  match oy with
  | some y => (y : ℤ)
  | none =>
    let c := civilFromDays nowDay
    if (m : ℤ) > c.2.1 then c.1 - 1 else c.1

/-- Embedding of `DateParser.parse_date_query`: relative vocabulary and
`N days ago` subtract whole days from `datetime.now()` (keeping its
time-of-day, and rejecting N > 365); weekday expressions delegate to the
weekday-offset arithmetic; ISO and slash dates construct midnight of the
civil date, raising `InvalidParameterError` on an invalid one. -/
def DateParser.parse_date_query (now : PyDateTime) : DateQuery → Except PyErr PyDateTime
  | .relative days_ago => .ok ⟨now.day - days_ago, now.tod⟩
  | .nDaysAgo n =>
    if n > 365 then
      .error (.invalidParameter ("Number of days too large: " ++ pyNatRepr n ++ " days")
        (some "Please use a relative date less than 365 days or use an absolute date."))
    else .ok ⟨now.day - n, now.tod⟩
  | .weekday isLast target => .ok (get_date_by_weekday now (target : ℤ) isLast)
  | .isoDate y m d =>
    if validYMD y m d then .ok ⟨daysFromCivil y m d, 0⟩
    else .error (.invalidParameter "Invalid date" (some "Date value error"))
  | .slashDate oy m d =>
    let year := slashYear now.day oy m
    if validYMD year m d then .ok ⟨daysFromCivil year m d, 0⟩
    else .error (.invalidParameter "Invalid date" (some "Date value error"))

/-- The calendar day denoted by a parse outcome (`none` on error). -/
def dayOf : Except PyErr PyDateTime → Option ℤ
  | .ok r => some r.day
  | .error _ => none

/-! ## Theorems settling the claims (with their supporting lemmas and witnesses) -/

/-- C1, counterexample: on the record with ranks `[1]` and count field `2`,
the source returns `10*0.6 + 20*0.3 + (1/1)*100*0.1 = 22`, while the claim's
formula (hotness divided by the count field) gives
`10*0.6 + 20*0.3 + (1/2)*100*0.1 = 17`; so `calculate_news_weight` does not
return the claimed value on every record with a non-empty rank list. -/
theorem calculate_news_weight_claim_false :
    calculate_news_weight ⟨[1], some 2⟩ 5 = 22 ∧
    claimed_news_weight ⟨[1], some 2⟩ = 17 ∧
    calculate_news_weight ⟨[1], some 2⟩ 5 ≠ claimed_news_weight ⟨[1], some 2⟩ := by
  refine ⟨?_, ?_, ?_⟩ <;> norm_num [calculate_news_weight, claimed_news_weight]

/-- C1, amended: for every record with a non-empty rank list,
`calculate_news_weight` returns the mean of `11 - min(rank,10)` times 0.6,
plus `min(count,10) * 10` times 0.3, plus the number of occurrences with
rank ≤ 5 divided by the **number of occurrences**, times 100, times 0.1;
for ranks `[1,2,3]` with count 3 it returns exactly 24.4, and on an empty
rank list it returns exactly 0.0 regardless of the count field. -/
theorem calculate_news_weight_spec :
    (∀ (d : NewsData) (t : ℤ),
        calculate_news_weight d t =
          if d.ranks = [] then 0 else amended_news_weight d t) ∧
    calculate_news_weight ⟨[1, 2, 3], some 3⟩ 5 = 244/10 ∧
    (∀ c : Option ℤ, calculate_news_weight ⟨[], c⟩ 5 = 0) := by
  refine ⟨?_, by norm_num [calculate_news_weight]; decide, fun c => rfl⟩
  intro d t
  by_cases h : d.ranks = [] <;>
    simp [calculate_news_weight, amended_news_weight, h]

theorem dictGet?_cons_of_ne {α : Type} (p : String × α) (t : List (String × α)) (k : String)
    (h : ¬p.1 = k) : dictGet? (p :: t) k = dictGet? t k := by
  unfold dictGet?
  rw [List.find?_cons_of_neg _ (by simp [h])]

theorem dictGet?_dictDel {α : Type} (l : List (String × α)) (k : String) :
    dictGet? (dictDel l k) k = none := by
  induction l with
  | nil => rfl
  | cons p t ih =>
    by_cases h : p.1 = k
    · rw [dictDel, List.filter_cons_of_neg (by simp [h])]
      exact ih
    · rw [dictDel, List.filter_cons_of_pos (by simp [h])]
      rw [dictGet?_cons_of_ne _ _ _ h]
      exact ih

theorem length_dictDel_of_mem {α : Type} (l : List (String × α)) (k : String)
    (hnd : (l.map Prod.fst).Nodup) (hmem : (dictGet? l k).isSome) :
    (dictDel l k).length + 1 = l.length := by
  induction l with
  | nil => simp [dictGet?] at hmem
  | cons p t ih =>
    have hnd' : p.1 ∉ t.map Prod.fst ∧ (t.map Prod.fst).Nodup := by
      rw [List.map_cons, List.nodup_cons] at hnd; exact hnd
    by_cases h : p.1 = k
    · have hnotin : k ∉ t.map Prod.fst := h ▸ hnd'.1
      have hall : ∀ q ∈ t, (!(q.1 == k)) = true := by
        intro q hq
        simp only [Bool.not_eq_true', beq_eq_false_iff_ne, ne_eq]
        intro hqk
        exact hnotin (List.mem_map.mpr ⟨q, hq, hqk⟩)
      simp [dictDel, h, List.filter_eq_self.mpr hall]
    · have hmem' : (dictGet? t k).isSome := by
        rw [dictGet?_cons_of_ne _ _ _ h] at hmem; exact hmem
      rw [dictDel, List.filter_cons_of_pos (by simp [h])]
      simpa [dictDel] using ih hnd'.2 hmem'

theorem CacheService.get_eq_of_found {α : Type} (s : CacheState α) (now : ℚ) (key : String)
    (ttl : ℚ) (v : α) (t : ℚ) (hc : dictGet? s.cache key = some v)
    (ht : dictGet? s.timestamps key = some t) :
    CacheService.get s now key ttl =
      if now - t < ttl then (some v, s)
      else (none, ⟨dictDel s.cache key, dictDel s.timestamps key⟩) := by
  unfold CacheService.get
  rw [hc, ht]

theorem CacheService.get_eq_of_absent {α : Type} (s : CacheState α) (now : ℚ) (key : String)
    (ttl : ℚ) (hc : dictGet? s.cache key = none) :
    CacheService.get s now key ttl = (none, s) := by
  unfold CacheService.get
  rw [hc]

/-- C2: for every well-formed cache state, key, ttl and current time,
`CacheService.get` returns a stored value exactly when an entry for the key
exists and the elapsed time since its write timestamp is strictly below the
ttl; when the entry exists but has expired, `get` reports absence, the key
is gone from the cache, and the entry count reported by a subsequent
`get_stats()` drops by one. -/
theorem cache_get_ttl_spec {α : Type} (s : CacheState α) (now : ℚ) (key : String) (ttl : ℚ)
    (hwf : s.wellFormed) :
    (∀ v : α, (CacheService.get s now key ttl).1 = some v ↔
      ∃ t : ℚ, dictGet? s.cache key = some v ∧ dictGet? s.timestamps key = some t ∧
        now - t < ttl) ∧
    (∀ (v : α) (t : ℚ), dictGet? s.cache key = some v →
      dictGet? s.timestamps key = some t → ttl ≤ now - t →
      (CacheService.get s now key ttl).1 = none ∧
      dictGet? (CacheService.get s now key ttl).2.cache key = none ∧
      ∀ now2 : ℚ,
        (CacheService.get (CacheService.get s now key ttl).2 now2 key ttl).1 = none ∧
        (CacheService.get_stats (CacheService.get s now key ttl).2 now2).total_entries + 1 =
          (CacheService.get_stats s now2).total_entries) := by
  constructor
  · intro v
    constructor
    · intro hv
      cases hc : dictGet? s.cache key with
      | none => rw [CacheService.get_eq_of_absent s now key ttl hc] at hv; simp at hv
      | some v' =>
        cases ht : dictGet? s.timestamps key with
        | none =>
          unfold CacheService.get at hv
          rw [hc, ht] at hv
          simp at hv
        | some t =>
          rw [CacheService.get_eq_of_found s now key ttl v' t hc ht] at hv
          by_cases hlt : now - t < ttl
          · rw [if_pos hlt] at hv
            simp only [Option.some.injEq] at hv
            subst hv
            exact ⟨t, rfl, rfl, hlt⟩
          · rw [if_neg hlt] at hv; simp at hv
    · rintro ⟨t, hc, ht, hlt⟩
      rw [CacheService.get_eq_of_found s now key ttl v t hc ht, if_pos hlt]
  · intro v t hc ht hexp
    have hget : CacheService.get s now key ttl =
        (none, ⟨dictDel s.cache key, dictDel s.timestamps key⟩) := by
      rw [CacheService.get_eq_of_found s now key ttl v t hc ht,
        if_neg (not_lt.mpr hexp)]
    refine ⟨by rw [hget], by rw [hget]; exact dictGet?_dictDel _ _, ?_⟩
    intro now2
    constructor
    · rw [hget]
      exact congrArg Prod.fst
        (CacheService.get_eq_of_absent _ now2 key ttl (dictGet?_dictDel _ _))
    · rw [hget]
      have hlen := length_dictDel_of_mem s.cache key hwf.2 (by rw [hc]; rfl)
      simpa [CacheService.get_stats] using hlen

/-- C2 witness: on the concrete one-entry cache written at time 0, a get at
time 100 with ttl 900 returns the stored value, and a get at time 1000
reports absence and leaves `get_stats` reporting zero entries. -/
theorem cache_get_ttl_spec_witness :
    (CacheService.get (⟨[("k", 42)], [("k", 0)]⟩ : CacheState ℕ) 100 "k" 900).1 = some 42 ∧
    (CacheService.get (⟨[("k", 42)], [("k", 0)]⟩ : CacheState ℕ) 1000 "k" 900).1 = none ∧
    (CacheService.get_stats
      (CacheService.get (⟨[("k", 42)], [("k", 0)]⟩ : CacheState ℕ) 1000 "k" 900).2
      1000).total_entries + 1 =
      (CacheService.get_stats (⟨[("k", 42)], [("k", 0)]⟩ : CacheState ℕ) 1000).total_entries := by
  have hwf : (⟨[("k", 42)], [("k", 0)]⟩ : CacheState ℕ).wellFormed := by decide
  refine ⟨((cache_get_ttl_spec _ 100 "k" 900 hwf).1 42).mpr ⟨0, rfl, rfl, by norm_num⟩,
    ((cache_get_ttl_spec _ 1000 "k" 900 hwf).2 42 0 rfl rfl (by norm_num)).1,
    (((cache_get_ttl_spec _ 1000 "k" 900 hwf).2 42 0 rfl rfl (by norm_num)).2.2 1000).2⟩

/-- C5: whenever the query string is contained case-insensitively in the
candidate title, `_fuzzy_match` reports a match with similarity exactly 1.0,
for every threshold and every behaviour of the similarity and
keyword-extraction helpers. -/
theorem fuzzy_match_containment (ctx : FuzzyCtx) (query text : String) (threshold : ℚ)
    (h : pyIn (pyToLower query) (pyToLower text) = true) :
    fuzzy_match ctx query text threshold = (true, 1) := by
  simp [fuzzy_match, h]

/-- C5 witness: the query `"GPT"` is contained case-insensitively in
`"OpenAI gpt-5 launch"`, and `_fuzzy_match` matches it at 1.0 even with
threshold 2 (far above every attainable score). -/
theorem fuzzy_match_containment_witness :
    fuzzy_match ⟨fun _ _ => 0, fun _ => []⟩ "GPT" "OpenAI gpt-5 launch" 2 = (true, 1) :=
  fuzzy_match_containment ⟨fun _ _ => 0, fun _ => []⟩ "GPT" "OpenAI gpt-5 launch" 2
    (by decide)

/-- C6: for every threshold ≥ 1 and every keyword whose previous-day count
is 0, the keyword is flagged viral exactly when its current-day count is at
least 5, and in that case its growth is reported as `"New Topic"`; in
particular count 5 is flagged and count 4 is not. -/
theorem viral_new_topic_spec (threshold : ℚ) (_hthr : 1 ≤ threshold) (kw : String)
    (current_count : ℕ) (samples : List String) :
    ((viralEntry threshold kw current_count 0 samples).isSome ↔ 5 ≤ current_count) ∧
    (∀ e, viralEntry threshold kw current_count 0 samples = some e →
      e.growth_rate = .newTopic) ∧
    (viralEntry threshold kw 5 0 samples).isSome = true ∧
    viralEntry threshold kw 4 0 samples = none := by
  refine ⟨?_, ?_, ?_, ?_⟩
  · unfold viralEntry
    by_cases h : 5 ≤ current_count <;> simp [h]
  · intro e he
    by_cases h : 5 ≤ current_count
    · have hv : viralEntry threshold kw current_count 0 samples =
          some { keyword := kw, current_count := current_count, previous_count := 0,
                 growth_rate := .newTopic, sample_titles := samples.take 3,
                 alert_level := "High" } := by
        simp [viralEntry, h]
      rw [hv] at he
      injection he with he'
      rw [← he']
    · rw [viralEntry] at he
      simp [h] at he
  · simp [viralEntry]
  · simp [viralEntry]

/-- C6 witness: with threshold 3.0, a keyword absent yesterday and seen 5
times today is flagged as a `"New Topic"`, while 4 observations are not
flagged. -/
theorem viral_new_topic_spec_witness :
    (viralEntry 3 "ai" 5 0 ["t1"]).isSome = true ∧
    (∀ e, viralEntry 3 "ai" 5 0 ["t1"] = some e → e.growth_rate = .newTopic) ∧
    viralEntry 3 "ai" 4 0 ["t1"] = none := by
  have h := viral_new_topic_spec 3 (by norm_num) "ai" 5 ["t1"]
  exact ⟨h.2.2.1, h.2.1, (viral_new_topic_spec 3 (by norm_num) "ai" 4 ["t1"]).2.2.2⟩

theorem categorize_first_spec (cats : List (String × List String)) (tl : String) :
    (categorize_first cats tl = none ↔
      ∀ p ∈ cats, (p.2.any (fun k => pyIn (pyToLower k) tl)) = false) ∧
    (∀ c, categorize_first cats tl = some c →
      ∃ pre kws post, cats = pre ++ (c, kws) :: post ∧
        (kws.any (fun k => pyIn (pyToLower k) tl)) = true ∧
        ∀ p ∈ pre, (p.2.any (fun k => pyIn (pyToLower k) tl)) = false) := by
  induction cats with
  | nil => exact ⟨by simp [categorize_first], by simp [categorize_first]⟩
  | cons hd rest ih =>
    obtain ⟨category, keywords⟩ := hd
    by_cases hm : (keywords.any (fun k => pyIn (pyToLower k) tl)) = true
    · constructor
      · simp only [categorize_first, hm, if_true]
        constructor
        · intro h; exact absurd h (by simp)
        · intro hall
          have := hall (category, keywords) (List.mem_cons_self _ _)
          simp only at this
          rw [hm] at this
          exact absurd this (by simp)
      · intro c hc
        simp only [categorize_first, hm, if_true, Option.some.injEq] at hc
        exact ⟨[], keywords, rest, by rw [hc]; rfl, hm, by simp⟩
    · have hm' : (keywords.any (fun k => pyIn (pyToLower k) tl)) = false :=
        Bool.not_eq_true _ ▸ (by simpa using hm)
      constructor
      · simp only [categorize_first, hm', if_false, Bool.false_eq_true]
        rw [ih.1]
        constructor
        · intro hall p hp
          rcases List.mem_cons.mp hp with hp | hp
          · rw [hp]; exact hm'
          · exact hall p hp
        · intro hall p hp
          exact hall p (List.mem_cons_of_mem _ hp)
      · intro c hc
        simp only [categorize_first, hm', Bool.false_eq_true, if_false] at hc
        obtain ⟨pre, kws, post, heq, hany, hpre⟩ := ih.2 c hc
        refine ⟨(category, keywords) :: pre, kws, post, by rw [heq]; rfl, hany, ?_⟩
        intro p hp
        rcases List.mem_cons.mp hp with hp | hp
        · rw [hp]; exact hm'
        · exact hpre p hp

/-- C7: every fetched item is assigned exactly one bucket — the first
category in the `TECH_KEYWORDS` order whose keyword list contains a
case-insensitive substring of the title — and a title matching no category
lands in `"General Tech News"`. -/
theorem categorize_news_first_match (title : String) :
    (∃ pre kws post, TECH_KEYWORDS = pre ++ (categorize_bucket title, kws) :: post ∧
      (kws.any (fun k => pyIn (pyToLower k) (pyToLower title))) = true ∧
      ∀ p ∈ pre, (p.2.any (fun k => pyIn (pyToLower k) (pyToLower title))) = false) ∨
    (categorize_bucket title = "General Tech News" ∧
      ∀ p ∈ TECH_KEYWORDS,
        (p.2.any (fun k => pyIn (pyToLower k) (pyToLower title))) = false) := by
  cases hc : categorize_first TECH_KEYWORDS (pyToLower title) with
  | none =>
    right
    exact ⟨by rw [categorize_bucket, hc]; rfl,
      (categorize_first_spec TECH_KEYWORDS (pyToLower title)).1.mp hc⟩
  | some c =>
    left
    have hb : categorize_bucket title = c := by rw [categorize_bucket, hc]; rfl
    rw [hb]
    exact (categorize_first_spec TECH_KEYWORDS (pyToLower title)).2 c hc

theorem check_rss_source_bool_iff (n u : String) (o : FetchOutcome) (rt : ℚ) :
    ((check_rss_source n u o rt).1 = true ↔ (check_rss_source n u o rt).2.status = .healthy) ∧
    (check_rss_source n u o rt).2.status ≠ .unknown := by
  cases o with
  | timeout => simp [check_rss_source]
  | connectionError => simp [check_rss_source]
  | otherExc msg => simp [check_rss_source]
  | response sc xe items ld =>
    by_cases hsc : sc ≠ 200
    · simp [check_rss_source, hsc]
    · cases xe with
      | some e => simp [check_rss_source, hsc]
      | none =>
        by_cases hi : items = 0
        · simp [check_rss_source, hsc, hi]
        · simp [check_rss_source, hsc, hi]

theorem status_count_partition (l : List ProbeDetails)
    (h : ∀ r ∈ l, r.status ≠ .unknown) :
    (l.filter (fun r => r.status = SourceStatus.healthy)).length +
      (l.filter (fun r => r.status = SourceStatus.error)).length +
      (l.filter (fun r => r.status = SourceStatus.warning)).length = l.length := by
  induction l with
  | nil => rfl
  | cons r t ih =>
    have ht := ih (fun x hx => h x (List.mem_cons_of_mem _ hx))
    have hr := h r (List.mem_cons_self _ _)
    cases hs : r.status <;>
      simp only [List.filter_cons, hs] <;> simp_all <;> omega

/-- C9: in the report written by the second health-check CLI,
`healthy_sources` counts exactly the probed sources with status `healthy`
and `failed_sources` only those with status `error`; a `warning` source
(HTTP 200, parseable XML, zero items) is counted in neither, so
`healthy_sources + failed_sources` is strictly below `total_sources` as soon
as one warning occurs — yet the process exits 0 only when every source is
healthy. -/
theorem health_report_counts (probes : List (String × String × FetchOutcome × ℚ)) :
    (save_health_report (probeResults probes)).healthy_sources =
      ((probeResults probes).filter (fun r => r.status = SourceStatus.healthy)).length ∧
    (save_health_report (probeResults probes)).failed_sources =
      ((probeResults probes).filter (fun r => r.status = SourceStatus.error)).length ∧
    (save_health_report (probeResults probes)).healthy_sources +
        (save_health_report (probeResults probes)).failed_sources +
        ((probeResults probes).filter (fun r => r.status = SourceStatus.warning)).length =
      (save_health_report (probeResults probes)).total_sources ∧
    ((∃ r ∈ probeResults probes, r.status = SourceStatus.warning) →
      (save_health_report (probeResults probes)).healthy_sources +
          (save_health_report (probeResults probes)).failed_sources <
        (save_health_report (probeResults probes)).total_sources) ∧
    (main_exit_code (probeChecks probes) = 0 ↔
      ∀ r ∈ probeResults probes, r.status = SourceStatus.healthy) := by
  have hne : ∀ r ∈ probeResults probes, r.status ≠ .unknown := by
    intro r hr
    simp only [probeResults, probeChecks, List.map_map, List.mem_map] at hr
    obtain ⟨p, _, rfl⟩ := hr
    exact (check_rss_source_bool_iff p.1 p.2.1 p.2.2.1 p.2.2.2).2
  have hcounts := status_count_partition (probeResults probes) hne
  refine ⟨rfl, rfl, hcounts, ?_, ?_⟩
  · rintro ⟨r, hr, hw⟩
    have hpos : 0 <
        ((probeResults probes).filter (fun r => r.status = SourceStatus.warning)).length :=
      List.length_pos.mpr (fun hnil =>
        (List.filter_eq_nil_iff.mp hnil r hr) (by simp [hw]))
    simp only [save_health_report] at hcounts ⊢
    omega
  · rw [main_exit_code]
    constructor
    · intro h0 r hr
      have hempty : ((probeChecks probes).filter (fun c => !c.1)).length = 0 := by
        by_contra hne0
        rw [if_neg hne0] at h0
        exact one_ne_zero h0
      have hall : ∀ c ∈ probeChecks probes, c.1 = true := by
        intro c hc
        have := List.filter_eq_nil_iff.mp (List.length_eq_zero.mp hempty) c hc
        simpa using this
      simp only [probeResults, List.mem_map] at hr
      obtain ⟨c, hc, rfl⟩ := hr
      simp only [probeChecks, List.mem_map] at hc
      obtain ⟨p, _, rfl⟩ := hc
      exact (check_rss_source_bool_iff p.1 p.2.1 p.2.2.1 p.2.2.2).1.mp
        (hall _ (by simp only [probeChecks, List.mem_map]; exact ⟨p, ‹_›, rfl⟩))
    · intro hall
      have hempty : ((probeChecks probes).filter (fun c => !c.1)).length = 0 := by
        rw [List.length_eq_zero, List.filter_eq_nil_iff]
        intro c hc
        have hcm := hc
        simp only [probeChecks, List.mem_map] at hcm
        obtain ⟨p, hp, rfl⟩ := hcm
        have hhealthy := hall _ (by
          simp only [probeResults, List.mem_map]
          exact ⟨_, hc, rfl⟩)
        have := (check_rss_source_bool_iff p.1 p.2.1 p.2.2.1 p.2.2.2).1.mpr hhealthy
        simp [this]
      rw [if_pos hempty]

/-- C9 witness: one healthy feed, one HTTP-404 feed and one empty-but-valid
feed give `healthy_sources = 1`, `failed_sources = 1`, `total_sources = 3`
(the warning counted in neither), and a nonzero exit. -/
theorem health_report_counts_witness :
    (save_health_report (probeResults
        [("A", "ua", .response 200 none 5 none, 1),
         ("B", "ub", .response 404 none 0 none, 1),
         ("C", "uc", .response 200 none 0 none, 1)])).healthy_sources +
      (save_health_report (probeResults
        [("A", "ua", .response 200 none 5 none, 1),
         ("B", "ub", .response 404 none 0 none, 1),
         ("C", "uc", .response 200 none 0 none, 1)])).failed_sources <
      (save_health_report (probeResults
        [("A", "ua", .response 200 none 5 none, 1),
         ("B", "ub", .response 404 none 0 none, 1),
         ("C", "uc", .response 200 none 0 none, 1)])).total_sources ∧
    main_exit_code (probeChecks
        [("A", "ua", .response 200 none 5 none, 1),
         ("B", "ub", .response 404 none 0 none, 1),
         ("C", "uc", .response 200 none 0 none, 1)]) ≠ 0 := by
  have h := health_report_counts
    [("A", "ua", .response 200 none 5 none, 1),
     ("B", "ub", .response 404 none 0 none, 1),
     ("C", "uc", .response 200 none 0 none, 1)]
  refine ⟨h.2.2.2.1 ⟨(check_rss_source "C" "uc" (.response 200 none 0 none) 1).2,
      by simp [probeResults, probeChecks], by simp [check_rss_source]⟩, ?_⟩
  intro h0
  have := h.2.2.2.2.mp h0 (check_rss_source "B" "ub" (.response 404 none 0 none) 1).2
    (by simp [probeResults, probeChecks])
  simp [check_rss_source] at this

/-- C3: `mode="incremental"` passes the facade's mode validation (whose
enumeration is `{daily, current, incremental}`) but the data-access service
implements only `daily` and `current` and rejects it with a `ValueError`;
hence, for every `top_n` and every environment whose cache holds no entry
under an `incremental` trending key, the facade call never returns a
successful topics result. -/
theorem trending_incremental_never_succeeds (env : TrendingEnv) (top_n : Option ℤ)
    (hmiss : ∀ tn : ℤ,
      (CacheService.get env.cache env.now (trending_topics_cache_key tn "incremental")
        1800).1 = none) :
    validate_mode (some "incremental") ["daily", "current", "incremental"] "current" =
      .ok "incremental" ∧
    (∀ tn : ℤ, ∃ e : PyErr,
      (DataService.get_trending_topics env tn "incremental").1 = .error e) ∧
    (DataQueryTools.get_trending_topics env top_n (some "incremental")).1.isSuccess =
      false := by
  have hmode : validate_mode (some "incremental") ["daily", "current", "incremental"]
      "current" = .ok "incremental" := by
    simp [validate_mode]
  have hserv : ∀ tn : ℤ, ∃ e : PyErr,
      (DataService.get_trending_topics env tn "incremental").1 = .error e := by
    intro tn
    have hm := hmiss tn
    cases hr : env.readAllTitles with
    | error e =>
      refine ⟨e, ?_⟩
      simp only [DataService.get_trending_topics, hm, hr]
    | ok day =>
      by_cases hempty : day.all_titles = []
      · refine ⟨.dataNotFound "No news data found for today"
          (some "Please ensure the crawler has run and generated data."), ?_⟩
        simp only [DataService.get_trending_topics, hm, hr, if_pos hempty]
      · refine ⟨.valueError
          ("Unsupported mode: " ++ "incremental" ++ ". Supported modes: daily, current"), ?_⟩
        simp only [DataService.get_trending_topics, hm, hr, if_neg hempty]
        rw [if_neg (by decide), if_neg (by decide)]
  refine ⟨hmode, hserv, ?_⟩
  cases hv : validate_top_n top_n 10 with
  | error e => simp [DataQueryTools.get_trending_topics, hv, TrendingResponse.isSuccess]
  | ok tn =>
    obtain ⟨e, he⟩ := hserv tn
    rcases hs : DataService.get_trending_topics env tn "incremental" with ⟨r, s⟩
    rw [hs] at he
    simp only at he
    subst he
    simp [DataQueryTools.get_trending_topics, hv, hmode, hs, TrendingResponse.isSuccess]

/-- C3 witness: on the empty cache with no data for today and `top_n`
absent, the `incremental` call fails (and the mode validation itself
passes). -/
theorem trending_incremental_never_succeeds_witness :
    (DataQueryTools.get_trending_topics
      ⟨⟨[], []⟩, 0, .error (.dataNotFound "No news data found for today" none), []⟩
      none (some "incremental")).1.isSuccess = false :=
  (trending_incremental_never_succeeds
    ⟨⟨[], []⟩, 0, .error (.dataNotFound "No news data found for today" none), []⟩
    none (fun _ => rfl)).2.2

/-- C10: a cache entry is served only when its stored value is truthy.  A
non-empty cached list within the ttl is served as-is; a cached **empty**
list — even within the ttl — is treated as a miss, and both accessors
recompute from the freshly read output tree. -/
theorem empty_cached_list_is_miss
    (cache : CacheState (List NewsItem)) (cacheD : CacheState (List DatedNewsItem))
    (now t tD : ℚ) (readToday readForDate : Except PyErr ParsedDay)
    (platforms : Option (List String)) (limit : ℤ) (include_url : Bool) (date : PyDate)
    (h1 : dictGet? cache.cache (latest_news_cache_key platforms limit include_url) =
      some [])
    (h2 : dictGet? cache.timestamps (latest_news_cache_key platforms limit include_url) =
      some t)
    (h3 : now - t < 900)
    (h4 : dictGet? cacheD.cache (news_by_date_cache_key date platforms limit include_url) =
      some [])
    (h5 : dictGet? cacheD.timestamps
      (news_by_date_cache_key date platforms limit include_url) = some tD)
    (h6 : now - tD < 1800) :
    (DataService.get_latest_news cache now readToday platforms limit include_url).1 =
      (match readToday with
       | .error e => .error e
       | .ok day => .ok (newsListFromParsed day now limit.toNat include_url)) ∧
    (DataService.get_news_by_date cacheD now readForDate date platforms limit
        include_url).1 =
      (match readForDate with
       | .error e => .error e
       | .ok day => .ok (newsListByDate day (strftime_ymd date) limit.toNat include_url)) ∧
    (∀ (c : CacheState (List NewsItem)) (v : List NewsItem) (tv : ℚ), v ≠ [] →
      dictGet? c.cache (latest_news_cache_key platforms limit include_url) = some v →
      dictGet? c.timestamps (latest_news_cache_key platforms limit include_url) = some tv →
      now - tv < 900 →
      (DataService.get_latest_news c now readToday platforms limit include_url).1 =
        .ok v) := by
  refine ⟨?_, ?_, ?_⟩
  · have hgot : CacheService.get cache now
        (latest_news_cache_key platforms limit include_url) 900 = (some [], cache) := by
      rw [CacheService.get_eq_of_found _ _ _ _ [] t h1 h2, if_pos h3]
    simp only [DataService.get_latest_news, hgot]
    rw [if_neg (by simp)]
    cases readToday <;> rfl
  · have hgot : CacheService.get cacheD now
        (news_by_date_cache_key date platforms limit include_url) 1800 =
        (some [], cacheD) := by
      rw [CacheService.get_eq_of_found _ _ _ _ [] tD h4 h5, if_pos h6]
    simp only [DataService.get_news_by_date, hgot]
    rw [if_neg (by simp)]
    cases readForDate <;> rfl
  · intro c v tv hv hc ht hts
    have hgot : CacheService.get c now
        (latest_news_cache_key platforms limit include_url) 900 = (some v, c) := by
      rw [CacheService.get_eq_of_found _ _ _ _ v tv hc ht, if_pos hts]
    simp only [DataService.get_latest_news, hgot]
    rw [if_pos hv]

/-- C10 witness: with an empty list cached under the exact key 10 seconds
ago, `get_latest_news` ignores it and recomputes from the (here empty)
parsed day, caching and returning the freshly computed result; a non-empty
cached list is served unchanged. -/
theorem empty_cached_list_is_miss_witness :
    (DataService.get_latest_news
        ⟨[(latest_news_cache_key (some ["zhihu"]) 50 false, [])],
         [(latest_news_cache_key (some ["zhihu"]) 50 false, 0)]⟩ 10
        (.ok ⟨[], [], []⟩) (some ["zhihu"]) 50 false).1 =
      .ok (newsListFromParsed ⟨[], [], []⟩ 10 50 false) ∧
    (DataService.get_latest_news
        ⟨[(latest_news_cache_key (some ["zhihu"]) 50 false,
           [⟨"t", "zhihu", "Zhihu", 1, 0, none, none⟩])],
         [(latest_news_cache_key (some ["zhihu"]) 50 false, 0)]⟩ 10
        (.ok ⟨[], [], []⟩) (some ["zhihu"]) 50 false).1 =
      .ok [⟨"t", "zhihu", "Zhihu", 1, 0, none, none⟩] := by
  have h := empty_cached_list_is_miss
    ⟨[(latest_news_cache_key (some ["zhihu"]) 50 false, [])],
     [(latest_news_cache_key (some ["zhihu"]) 50 false, 0)]⟩
    ⟨[(news_by_date_cache_key ⟨2025, 10, 11⟩ (some ["zhihu"]) 50 false, [])],
     [(news_by_date_cache_key ⟨2025, 10, 11⟩ (some ["zhihu"]) 50 false, 0)]⟩
    10 0 0 (.ok ⟨[], [], []⟩) (.ok ⟨[], [], []⟩)
    (some ["zhihu"]) 50 false ⟨2025, 10, 11⟩
    (by simp [dictGet?]) (by simp [dictGet?]) (by norm_num)
    (by simp [dictGet?]) (by simp [dictGet?]) (by norm_num)
  refine ⟨h.1, ?_⟩
  exact h.2.2 _ [⟨"t", "zhihu", "Zhihu", 1, 0, none, none⟩] 0
    (by simp) (by simp [dictGet?]) (by simp [dictGet?]) (by norm_num)

theorem natDigits_eq (n : ℕ) :
    natDigits n = if n < 10 then [n] else n % 10 :: natDigits (n / 10) := by
  rw [natDigits]
  split <;> simp_all

theorem valLE_natDigits (n : ℕ) : valLE (natDigits n) = n := by
  induction n using Nat.strong_induction_on with
  | _ n ih =>
    rw [natDigits_eq]
    by_cases h : n < 10
    · simp [h, valLE]
    · rw [if_neg h]
      rw [valLE, ih (n / 10) (Nat.div_lt_self (by omega) (by omega))]
      omega

theorem natDigits_mem_lt_ten (n : ℕ) : ∀ d ∈ natDigits n, d < 10 := by
  induction n using Nat.strong_induction_on with
  | _ n ih =>
    rw [natDigits_eq]
    by_cases h : n < 10
    · simp [h]
    · rw [if_neg h]
      intro d hd
      rcases List.mem_cons.mp hd with hd | hd
      · omega
      · exact ih (n / 10) (Nat.div_lt_self (by omega) (by omega)) d hd

theorem digitChar_toNat (d : ℕ) (h : d < 10) : (digitChar d).toNat = 48 + d := by
  interval_cases d <;> decide

theorem digitVal_digitChar (d : ℕ) (h : d < 10) : digitVal (digitChar d) = d := by
  rw [digitVal, digitChar_toNat d h]
  omega

theorem foldr_digits_valLE (l : List ℕ) (h : ∀ d ∈ l, d < 10) :
    l.foldr (fun d acc => acc * 10 + digitVal (digitChar d)) 0 = valLE l := by
  induction l with
  | nil => rfl
  | cons d ds ih =>
    rw [List.foldr_cons, ih (fun x hx => h x (List.mem_cons_of_mem _ hx)),
      digitVal_digitChar d (h d (List.mem_cons_self _ _)), valLE]
    omega

theorem decValue_pyNatRepr (n : ℕ) : decValue (pyNatRepr n).data = n := by
  show decValue ((natDigits n).map digitChar).reverse = n
  rw [decValue, List.foldl_reverse, List.foldr_map]
  exact (foldr_digits_valLE (natDigits n) (natDigits_mem_lt_ten n)).trans
    (valLE_natDigits n)

theorem pyNatRepr_inj {m n : ℕ} (h : pyNatRepr m = pyNatRepr n) : m = n := by
  have := congrArg (fun s => decValue s.data) h
  simpa [decValue_pyNatRepr] using this

theorem mem_pyNatRepr_range (n : ℕ) :
    ∀ c ∈ (pyNatRepr n).data, 48 ≤ c.toNat ∧ c.toNat ≤ 57 := by
  intro c hc
  have hc' : c ∈ ((natDigits n).map digitChar).reverse := hc
  rw [List.mem_reverse, List.mem_map] at hc'
  obtain ⟨d, hd, rfl⟩ := hc'
  have hlt := natDigits_mem_lt_ten n d hd
  rw [digitChar_toNat d hlt]
  omega

theorem foldl_decStep_replicate_zero (m : ℕ) :
    (List.replicate m '0').foldl (fun acc c => acc * 10 + digitVal c) 0 = 0 := by
  induction m with
  | zero => rfl
  | succ k ih => simpa [List.replicate_succ, digitVal] using ih

theorem decValue_zeroPad_pyNatRepr (k n : ℕ) :
    decValue (zeroPad k (pyNatRepr n)).data = n := by
  show decValue (List.replicate (k - (pyNatRepr n).length) '0' ++ (pyNatRepr n).data) = n
  rw [decValue, List.foldl_append, foldl_decStep_replicate_zero]
  exact decValue_pyNatRepr n

theorem mem_zeroPad_pyNatRepr_range (k n : ℕ) :
    ∀ c ∈ (zeroPad k (pyNatRepr n)).data, 48 ≤ c.toNat ∧ c.toNat ≤ 57 := by
  intro c hc
  rcases List.mem_append.mp hc with hc | hc
  · have := List.eq_of_mem_replicate hc
    subst this
    decide
  · exact mem_pyNatRepr_range n c hc

theorem string_eq_of_data {s t : String} (h : s.data = t.data) : s = t := by
  cases s; cases t; exact congrArg String.mk h

theorem sep_split (c : Char) (a₁ : List Char) : ∀ (a₂ r₁ r₂ : List Char),
    c ∉ a₁ → c ∉ a₂ → a₁ ++ c :: r₁ = a₂ ++ c :: r₂ → a₁ = a₂ ∧ r₁ = r₂ := by
  induction a₁ with
  | nil =>
    intro a₂ r₁ r₂ h₁ h₂ heq
    cases a₂ with
    | nil => simpa using heq
    | cons b bs =>
      simp only [List.nil_append, List.cons_append, List.cons.injEq] at heq
      exfalso
      apply h₂
      rw [← heq.1]
      exact List.mem_cons_self _ _
  | cons a as ih =>
    intro a₂ r₁ r₂ h₁ h₂ heq
    cases a₂ with
    | nil =>
      simp only [List.cons_append, List.nil_append, List.cons.injEq] at heq
      obtain ⟨h3, _⟩ := heq
      subst h3
      exact absurd (List.mem_cons_self _ _) h₁
    | cons b bs =>
      simp only [List.cons_append, List.cons.injEq] at heq
      obtain ⟨hab, htail⟩ := heq
      obtain ⟨he, ht⟩ := ih bs r₁ r₂ (fun hx => h₁ (List.mem_cons_of_mem _ hx))
        (fun hx => h₂ (List.mem_cons_of_mem _ hx)) htail
      exact ⟨by rw [hab, he], ht⟩

theorem pyJoin_comma_data (x y : String) (ys : List String) :
    (pyJoin "," (x :: y :: ys)).data = x.data ++ ',' :: (pyJoin "," (y :: ys)).data := by
  show (x ++ "," ++ pyJoin "," (y :: ys)).data = _
  simp

theorem mem_pyJoin_comma (ps : List String) (c : Char) :
    c ∈ (pyJoin "," ps).data → c = ',' ∨ ∃ p ∈ ps, c ∈ p.data := by
  induction ps with
  | nil => intro h; simp [pyJoin] at h
  | cons x xs ih =>
    cases xs with
    | nil => intro h; exact Or.inr ⟨x, by simp, h⟩
    | cons y ys =>
      intro h
      rw [pyJoin_comma_data] at h
      rcases List.mem_append.mp h with h | h
      · exact Or.inr ⟨x, by simp, h⟩
      · rcases List.mem_cons.mp h with h | h
        · exact Or.inl h
        · rcases ih h with h | ⟨p, hp, hc⟩
          · exact Or.inl h
          · exact Or.inr ⟨p, List.mem_cons_of_mem _ hp, hc⟩

theorem pyJoin_comma_inj (l₁ : List String) : ∀ (l₂ : List String),
    (∀ p ∈ l₁, p ≠ "" ∧ ',' ∉ p.data) → (∀ p ∈ l₂, p ≠ "" ∧ ',' ∉ p.data) →
    pyJoin "," l₁ = pyJoin "," l₂ → l₁ = l₂ := by
  induction l₁ with
  | nil =>
    intro l₂ _ h₂ heq
    cases l₂ with
    | nil => rfl
    | cons y ys =>
      exfalso
      cases ys with
      | nil =>
        exact (h₂ y (by simp)).1 (by simpa [pyJoin] using heq.symm)
      | cons z zs =>
        have hd := congrArg String.data heq
        rw [pyJoin_comma_data] at hd
        simp [pyJoin] at hd
  | cons x xs ih =>
    intro l₂ h₁ h₂ heq
    cases l₂ with
    | nil =>
      exfalso
      cases xs with
      | nil =>
        exact (h₁ x (by simp)).1 (by simpa [pyJoin] using heq)
      | cons w ws =>
        have hd := congrArg String.data heq
        rw [pyJoin_comma_data] at hd
        simp [pyJoin] at hd
    | cons y ys =>
      cases xs with
      | nil =>
        cases ys with
        | nil =>
          have : x = y := by simpa [pyJoin] using heq
          rw [this]
        | cons z zs =>
          exfalso
          have hd := congrArg String.data heq
          rw [pyJoin_comma_data] at hd
          apply (h₁ x (by simp)).2
          show ',' ∈ x.data
          have : (pyJoin "," [x]).data = x.data := rfl
          rw [this] at hd
          rw [hd]
          simp
      | cons w ws =>
        cases ys with
        | nil =>
          exfalso
          have hd := congrArg String.data heq
          rw [pyJoin_comma_data] at hd
          apply (h₂ y (by simp)).2
          show ',' ∈ y.data
          have : (pyJoin "," [y]).data = y.data := rfl
          rw [this] at hd
          rw [← hd]
          simp
        | cons z zs =>
          have hd := congrArg String.data heq
          rw [pyJoin_comma_data, pyJoin_comma_data] at hd
          obtain ⟨hxy, htail⟩ := sep_split ',' x.data y.data _ _
            (h₁ x (by simp)).2 (h₂ y (by simp)).2 hd
          have hx : x = y := string_eq_of_data hxy
          have hrest := ih (z :: zs)
            (fun p hp => h₁ p (List.mem_cons_of_mem _ hp))
            (fun p hp => h₂ p (List.mem_cons_of_mem _ hp))
            (string_eq_of_data htail)
          rw [hx, hrest]

theorem pyJoin_no_colon (ps : List String) (h : ∀ p ∈ ps, goodPlatformId p) :
    ':' ∉ (pyJoin "," ps).data := by
  intro hc
  rcases mem_pyJoin_comma ps ':' hc with h' | ⟨p, hp, hcp⟩
  · exact absurd h' (by decide)
  · exact (h p hp).2.2 hcp

theorem pyIntRepr_nonneg (l : ℤ) (h : 0 ≤ l) : pyIntRepr l = pyNatRepr l.toNat :=
  if_neg (not_lt.mpr h)

theorem pyNatRepr_no_colon (n : ℕ) : ':' ∉ (pyNatRepr n).data := by
  intro hc
  have h := mem_pyNatRepr_range n ':' hc
  have h58 : (':' : Char).toNat = 58 := rfl
  omega

theorem key_tail_inj (l₁ l₂ : ℤ) (u₁ u₂ : Bool) (hl₁ : 0 ≤ l₁) (hl₂ : 0 ≤ l₂)
    (h : (pyIntRepr l₁).data ++ ':' :: (pyBoolRepr u₁).data =
      (pyIntRepr l₂).data ++ ':' :: (pyBoolRepr u₂).data) : l₁ = l₂ ∧ u₁ = u₂ := by
  rw [pyIntRepr_nonneg _ hl₁, pyIntRepr_nonneg _ hl₂] at h
  obtain ⟨h1, h2⟩ :=
    sep_split ':' _ _ _ _ (pyNatRepr_no_colon _) (pyNatRepr_no_colon _) h
  constructor
  · have := pyNatRepr_inj (string_eq_of_data h1)
    omega
  · cases u₁ <;> cases u₂
    · rfl
    · exact absurd h2 (by decide)
    · exact absurd h2 (by decide)
    · rfl

theorem latest_news_cache_key_data (ps : List String) (l : ℤ) (u : Bool) :
    (latest_news_cache_key (some ps) l u).data =
      "latest_news:".data ++ ((pyJoin "," ps).data ++ ':' ::
        ((pyIntRepr l).data ++ ':' :: (pyBoolRepr u).data)) := by
  show ("latest_news:" ++ pyJoin "," ps ++ ":" ++ pyIntRepr l ++ ":" ++
    pyBoolRepr u).data = _
  simp

theorem strftime_ymd_data (d : PyDate) :
    (strftime_ymd d).data = (zeroPad 4 (pyNatRepr d.year)).data ++ '-' ::
      ((zeroPad 2 (pyNatRepr d.month)).data ++ '-' :: (zeroPad 2 (pyNatRepr d.day)).data) := by
  show (zeroPad 4 (pyNatRepr d.year) ++ "-" ++ zeroPad 2 (pyNatRepr d.month) ++ "-" ++
    zeroPad 2 (pyNatRepr d.day)).data = _
  simp

theorem zeroPad_no_dash (k n : ℕ) : '-' ∉ (zeroPad k (pyNatRepr n)).data := by
  intro hc
  have h := mem_zeroPad_pyNatRepr_range k n '-' hc
  have h45 : ('-' : Char).toNat = 45 := rfl
  omega

theorem strftime_no_colon (d : PyDate) : ':' ∉ (strftime_ymd d).data := by
  intro hc
  rw [strftime_ymd_data] at hc
  have h58 : (':' : Char).toNat = 58 := rfl
  rcases List.mem_append.mp hc with hc | hc
  · have := mem_zeroPad_pyNatRepr_range 4 d.year ':' hc; omega
  · rcases List.mem_cons.mp hc with hc | hc
    · exact absurd hc (by decide)
    · rcases List.mem_append.mp hc with hc | hc
      · have := mem_zeroPad_pyNatRepr_range 2 d.month ':' hc; omega
      · rcases List.mem_cons.mp hc with hc | hc
        · exact absurd hc (by decide)
        · have := mem_zeroPad_pyNatRepr_range 2 d.day ':' hc; omega

theorem zeroPad_pyNatRepr_inj {k₁ k₂ m n : ℕ}
    (h : (zeroPad k₁ (pyNatRepr m)).data = (zeroPad k₂ (pyNatRepr n)).data) : m = n := by
  have := congrArg decValue h
  rwa [decValue_zeroPad_pyNatRepr, decValue_zeroPad_pyNatRepr] at this

theorem strftime_ymd_inj {d₁ d₂ : PyDate} (h : strftime_ymd d₁ = strftime_ymd d₂) :
    d₁ = d₂ := by
  have hd := congrArg String.data h
  rw [strftime_ymd_data, strftime_ymd_data] at hd
  obtain ⟨hy, hrest⟩ :=
    sep_split '-' _ _ _ _ (zeroPad_no_dash 4 d₁.year) (zeroPad_no_dash 4 d₂.year) hd
  obtain ⟨hm, hday⟩ :=
    sep_split '-' _ _ _ _ (zeroPad_no_dash 2 d₁.month) (zeroPad_no_dash 2 d₂.month) hrest
  obtain ⟨y₁, m₁, dd₁⟩ := d₁
  obtain ⟨y₂, m₂, dd₂⟩ := d₂
  simp only at hy hm hday
  rw [zeroPad_pyNatRepr_inj hy, zeroPad_pyNatRepr_inj hm, zeroPad_pyNatRepr_inj hday]

theorem news_by_date_cache_key_data (d : PyDate) (ps : List String) (l : ℤ) (u : Bool) :
    (news_by_date_cache_key d (some ps) l u).data =
      "news_by_date:".data ++ ((strftime_ymd d).data ++ ':' ::
        ((pyJoin "," ps).data ++ ':' ::
          ((pyIntRepr l).data ++ ':' :: (pyBoolRepr u).data))) := by
  show ("news_by_date:" ++ strftime_ymd d ++ ":" ++ pyJoin "," ps ++ ":" ++
    pyIntRepr l ++ ":" ++ pyBoolRepr u).data = _
  simp

/-- C4, counterexample: the key builder joins the platform list with bare
commas, so the two distinct platform lists `["a,b"]` and `["a", "b"]`
(same limit, same URL flag) produce the **same** cache key — refuting the
claim that distinct parameter combinations always receive distinct keys. -/
theorem cache_key_collision :
    latest_news_cache_key (some ["a,b"]) 50 false =
      latest_news_cache_key (some ["a", "b"]) 50 false ∧
    (["a,b"] : List String) ≠ ["a", "b"] := by
  constructor
  · have h : pyJoin "," ["a,b"] = pyJoin "," ["a", "b"] := by decide
    show "latest_news:" ++ pyJoin "," ["a,b"] ++ ":" ++ pyIntRepr 50 ++ ":" ++
      pyBoolRepr false = "latest_news:" ++ pyJoin "," ["a", "b"] ++ ":" ++
      pyIntRepr 50 ++ ":" ++ pyBoolRepr false
    rw [h]
  · decide

/-- C4, amended: restricted to platform IDs that are nonempty and contain
neither a comma nor a colon (the shape of configured platform IDs, `None`
being normalized to the empty list by `platforms or []`), and to
nonnegative limits, the two key builders are injective: distinct
(platform list, limit, include_url) triples — and for the by-date key also
distinct dates — never share a cache key. -/
theorem cache_keys_injective :
    (∀ (ps₁ ps₂ : List String) (l₁ l₂ : ℤ) (u₁ u₂ : Bool),
      (∀ p ∈ ps₁, goodPlatformId p) → (∀ p ∈ ps₂, goodPlatformId p) →
      0 ≤ l₁ → 0 ≤ l₂ →
      latest_news_cache_key (some ps₁) l₁ u₁ = latest_news_cache_key (some ps₂) l₂ u₂ →
      ps₁ = ps₂ ∧ l₁ = l₂ ∧ u₁ = u₂) ∧
    (∀ (d₁ d₂ : PyDate) (ps₁ ps₂ : List String) (l₁ l₂ : ℤ) (u₁ u₂ : Bool),
      (∀ p ∈ ps₁, goodPlatformId p) → (∀ p ∈ ps₂, goodPlatformId p) →
      0 ≤ l₁ → 0 ≤ l₂ →
      news_by_date_cache_key d₁ (some ps₁) l₁ u₁ =
        news_by_date_cache_key d₂ (some ps₂) l₂ u₂ →
      d₁ = d₂ ∧ ps₁ = ps₂ ∧ l₁ = l₂ ∧ u₁ = u₂) := by
  constructor
  · intro ps₁ ps₂ l₁ l₂ u₁ u₂ hps₁ hps₂ hl₁ hl₂ heq
    have hd := congrArg String.data heq
    rw [latest_news_cache_key_data, latest_news_cache_key_data] at hd
    have hd' := List.append_cancel_left hd
    obtain ⟨hJ, hrest⟩ := sep_split ':' _ _ _ _
      (pyJoin_no_colon ps₁ hps₁) (pyJoin_no_colon ps₂ hps₂) hd'
    refine ⟨pyJoin_comma_inj ps₁ ps₂
      (fun p hp => ⟨(hps₁ p hp).1, (hps₁ p hp).2.1⟩)
      (fun p hp => ⟨(hps₂ p hp).1, (hps₂ p hp).2.1⟩)
      (string_eq_of_data hJ), key_tail_inj l₁ l₂ u₁ u₂ hl₁ hl₂ hrest⟩
  · intro d₁ d₂ ps₁ ps₂ l₁ l₂ u₁ u₂ hps₁ hps₂ hl₁ hl₂ heq
    have hd := congrArg String.data heq
    rw [news_by_date_cache_key_data, news_by_date_cache_key_data] at hd
    have hd' := List.append_cancel_left hd
    obtain ⟨hD, hrest⟩ := sep_split ':' _ _ _ _
      (strftime_no_colon d₁) (strftime_no_colon d₂) hd'
    obtain ⟨hJ, hrest'⟩ := sep_split ':' _ _ _ _
      (pyJoin_no_colon ps₁ hps₁) (pyJoin_no_colon ps₂ hps₂) hrest
    refine ⟨strftime_ymd_inj (string_eq_of_data hD),
      pyJoin_comma_inj ps₁ ps₂
        (fun p hp => ⟨(hps₁ p hp).1, (hps₁ p hp).2.1⟩)
        (fun p hp => ⟨(hps₂ p hp).1, (hps₂ p hp).2.1⟩)
        (string_eq_of_data hJ),
      key_tail_inj l₁ l₂ u₁ u₂ hl₁ hl₂ hrest'⟩

/-- C4 witness: both injectivity statements applied at concrete well-formed
inputs (platform lists `["zhihu", "weibo"]`, date 2025-10-11, limit 50). -/
theorem cache_keys_injective_witness :
    ((["zhihu", "weibo"] : List String) = ["zhihu", "weibo"] ∧ (50 : ℤ) = 50 ∧
      false = false) ∧
    ((⟨2025, 10, 11⟩ : PyDate) = ⟨2025, 10, 11⟩ ∧
      (["zhihu"] : List String) = ["zhihu"] ∧ (20 : ℤ) = 20 ∧ true = true) :=
  ⟨cache_keys_injective.1 ["zhihu", "weibo"] ["zhihu", "weibo"] 50 50 false false
    (by decide) (by decide) (by norm_num) (by norm_num) rfl,
   cache_keys_injective.2 ⟨2025, 10, 11⟩ ⟨2025, 10, 11⟩ ["zhihu"] ["zhihu"] 20 20
    true true (by decide) (by decide) (by norm_num) (by norm_num) rfl⟩

/-- C8, counterexample: parsing `"today"` at one hour past midnight returns
`now` itself — time-of-day 3600, not 0 — so the value returned by
`parse_date_query` is **not** floored to a calendar day (the relative and
weekday families keep now's time-of-day; only absolute dates are
midnight). -/
theorem parse_date_query_not_floored :
    DateParser.parse_date_query ⟨0, 3600⟩ (.relative 0) = .ok ⟨0, 3600⟩ ∧
    (DateParser.parse_date_query ⟨0, 3600⟩ (.relative 0)).toOption.map PyDateTime.tod ≠
      some 0 := by
  constructor
  · simp [DateParser.parse_date_query]
  · simp [DateParser.parse_date_query, Except.toOption]

/-- C8, amended: the calendar day denoted by the parse of any accepted
expression is a function of the expression and the calendar day of
evaluation alone — two parses of the same expression on the same calendar
day agree on the resulting calendar date (and on whether they error) —
while the time-of-day of the result is now's own for the relative
vocabulary, the `N days ago` family and the weekday family (each returns
now minus a whole number of days, not floored), and midnight only for the
absolute (ISO and slash) families. -/
theorem parse_date_query_day_spec :
    (∀ (q : DateQuery) (n₁ n₂ : PyDateTime), n₁.day = n₂.day →
      dayOf (DateParser.parse_date_query n₁ q) = dayOf (DateParser.parse_date_query n₂ q)) ∧
    (∀ (now : PyDateTime) (k : ℕ),
      DateParser.parse_date_query now (.relative k) = .ok ⟨now.day - k, now.tod⟩) ∧
    (∀ (now : PyDateTime) (n : ℕ) (r : PyDateTime),
      DateParser.parse_date_query now (.nDaysAgo n) = .ok r →
      r = ⟨now.day - n, now.tod⟩) ∧
    (∀ (now : PyDateTime) (isLast : Bool) (target : ℕ),
      DateParser.parse_date_query now (.weekday isLast target) =
        .ok (get_date_by_weekday now target isLast) ∧
      (get_date_by_weekday now target isLast).tod = now.tod) ∧
    (∀ (now : PyDateTime) (y m d : ℕ) (r : PyDateTime),
      DateParser.parse_date_query now (.isoDate y m d) = .ok r → r.tod = 0) ∧
    (∀ (now : PyDateTime) (oy : Option ℕ) (m d : ℕ) (r : PyDateTime),
      DateParser.parse_date_query now (.slashDate oy m d) = .ok r → r.tod = 0) := by
  refine ⟨?_, fun now k => rfl, ?_, fun now isLast target => ⟨rfl, rfl⟩, ?_, ?_⟩
  · intro q n₁ n₂ h
    obtain ⟨d₁, t₁⟩ := n₁
    obtain ⟨d₂, t₂⟩ := n₂
    simp only at h
    subst h
    cases q with
    | relative k => simp [DateParser.parse_date_query, dayOf]
    | nDaysAgo n =>
      by_cases h365 : n > 365 <;>
        simp [DateParser.parse_date_query, dayOf, h365]
    | weekday isLast target =>
      simp [DateParser.parse_date_query, dayOf, get_date_by_weekday]
    | isoDate y m d =>
      by_cases hv : validYMD y m d = true <;>
        simp [DateParser.parse_date_query, dayOf, hv]
    | slashDate oy m d =>
      by_cases hv : validYMD (slashYear d₁ oy m) m d = true <;>
        simp [DateParser.parse_date_query, dayOf, hv]
  · intro now n r hr
    simp only [DateParser.parse_date_query] at hr
    by_cases h365 : n > 365
    · rw [if_pos h365] at hr
      exact absurd hr (by simp)
    · rw [if_neg h365] at hr
      injection hr with hr
      exact hr.symm
  · intro now y m d r hr
    simp only [DateParser.parse_date_query] at hr
    by_cases hv : validYMD y m d = true
    · rw [if_pos hv] at hr
      injection hr with hr
      rw [← hr]
    · rw [if_neg hv] at hr
      exact absurd hr (by simp)
  · intro now oy m d r hr
    simp only [DateParser.parse_date_query] at hr
    by_cases hv : validYMD (slashYear now.day oy m) m d = true
    · rw [if_pos hv] at hr
      injection hr with hr
      rw [← hr]
    · rw [if_neg hv] at hr
      exact absurd hr (by simp)

/-- C8 witness: two parses of `"yesterday"` on the same calendar day, at
midnight and one hour later, denote the same calendar date; a `"3 days
ago"` parse at one hour past midnight returns now minus three whole days
with now's own time-of-day, and a `"last monday"` parse keeps now's
time-of-day as well. -/
theorem parse_date_query_day_spec_witness :
    dayOf (DateParser.parse_date_query ⟨100, 0⟩ (.relative 1)) =
      dayOf (DateParser.parse_date_query ⟨100, 3600⟩ (.relative 1)) ∧
    (⟨97, 3600⟩ : PyDateTime) = ⟨(100 : ℤ) - (3 : ℕ), 3600⟩ ∧
    (get_date_by_weekday ⟨100, 3600⟩ 0 true).tod = 3600 :=
  ⟨parse_date_query_day_spec.1 (.relative 1) ⟨100, 0⟩ ⟨100, 3600⟩ rfl,
   (parse_date_query_day_spec.2.2.1 ⟨100, 3600⟩ 3 ⟨97, 3600⟩ rfl).trans rfl,
   (parse_date_query_day_spec.2.2.2.1 ⟨100, 3600⟩ true 0).2⟩

end SignalForge
